import Mathlib

/-!
Verification of the yad Yandex.Disk REST client (Go) against its
specification.  The Go code is shallowly embedded: pure string and list
manipulation is translated directly; the HTTP layer and the generic
`encoding/json` codec are external capabilities, so an HTTP response is
modelled as a record carrying the status code, the body bytes, and the
outcome that `json.Unmarshal` would produce on that body for each target
type the client decodes into (the decoded value left in the target
together with an optional decode error).
-/

/-- `Status` of operation type (Go: `type Status int` with constants
`StatusFailure`, `StatusInProgress`, `StatusSuccess`). -/
inductive Status where
  | StatusFailure
  | StatusInProgress
  | StatusSuccess
deriving DecidableEq, Repr

/-- `ResourceType` describes type of the remote resource: directory or file
(Go: `type ResourceType int` with constants `ResourceTypeUnknown`,
`ResourceTypeDir`, `ResourceTypeFile`). -/
inductive ResourceType where
  | ResourceTypeUnknown
  | ResourceTypeDir
  | ResourceTypeFile
deriving DecidableEq, Repr

open ResourceType

/-- Embedding of `ResourceType.UnmarshalJSON`.  The Go method receives the
raw JSON bytes; here they are a list of characters.  It demands at least
two characters with a double quote first and last, strips the quotes and
maps the inner text; Go mutates `*rt` and returns an `error`, modelled as
`Except`.  The error text follows `fmt.Errorf("invalid type JSON value %s", s)`. -/
def ResourceType.unmarshalJSON (data : List Char) : Except String ResourceType :=
  if data.length < 2 ∨ data.head? ≠ some '"' ∨ data.getLast? ≠ some '"' then
    Except.error ("invalid type JSON value " ++ String.mk data)
  else
    let inner := (data.drop 1).dropLast
    if inner = "dir".data then Except.ok ResourceTypeDir
    else if inner = "file".data then Except.ok ResourceTypeFile
    else Except.ok ResourceTypeUnknown

/-- `Link` is a Yandex.Disk Link response object. -/
structure Link where
  Href : String
  Method : String
  Templated : Bool
deriving DecidableEq, Repr

/-- Embedding of Go `strings.Contains(s, pat)` on character lists: does
`pat` occur as a contiguous substring of `s`? -/
def strContains (s pat : List Char) : Bool :=
  if pat.isPrefixOf s then true
  else
    match s with
    | [] => false
    | _ :: rest => strContains rest pat

/-- `IsOperation` returns true if current Link represents operation object
(Go: `strings.Contains(l.Href, "/disk/operations")`). -/
def Link.IsOperation (l : Link) : Bool :=
  strContains l.Href.data "/disk/operations".data

/-- Modelled behaviour of `net/url`: the suffix of the character list that
follows the first `"://"` separator, if any. -/
def afterSchemeSep : List Char → Option (List Char)
  | [] => none
  | ':' :: '/' :: '/' :: rest => some rest
  | _ :: rest => afterSchemeSep rest

/-- Drop the host part: everything before the first `'/'`. -/
def dropToSlash : List Char → List Char
  | [] => []
  | c :: rest => if c = '/' then c :: rest else dropToSlash rest

/-- Modelled behaviour of `url.Parse` followed by `URL.RequestURI()` for
absolute URLs without query, fragment or opaque part: the path starting at
the first slash after `"://"`, the whole input when there is no scheme
separator, and `"/"` when the path is empty. -/
def requestURI (href : List Char) : List Char :=
  let p :=
    match afterSchemeSep href with
    | some rest => dropToSlash rest
    | none => href
  if p = [] then ['/'] else p

/-- Embedding of Go `strings.Split(s, "/")`: split at every separator
character; the result is never empty. -/
def splitOnChar (c : Char) : List Char → List (List Char)
  | [] => [[]]
  | x :: xs =>
    let r := splitOnChar c xs
    if x = c then [] :: r
    else
      match r with
      | h :: t => (x :: h) :: t
      | [] => [[x]]

/-- `Operation` returns operation ID, the last `/`-separated segment of the
request URI; empty string if Link does not represent operation (the
`url.Parse` error branch of the Go code cannot fire in this model, where
parsing is total). -/
def Link.Operation (l : Link) : String :=
  if l.IsOperation then
    let parts := splitOnChar '/' (requestURI l.Href.data)
    match parts.getLast? with
    | some p => String.mk p
    | none => ""
  else ""

mutual
/-- `Resource` describes remote resource.  Mutually recursive with
`ResourceList` exactly as the Go structs are (`Resource.SubList :
*ResourceList`, `ResourceList.Items : []*Resource`); the `time.Time`
fields are kept as plain strings. -/
inductive Resource where
  | mk (rtype : ResourceType) (name created modified path hash : String)
       (size : Int) (subList : Option ResourceList)

/-- `ResourceList` is a server's list of resources response model. -/
inductive ResourceList where
  | mk (items : List Resource) (limit offset : Int)
end

/-- `Resource.Type` field (named `rtype` here: `Type` is a Lean keyword). -/
def Resource.rtype : Resource → ResourceType
  | .mk t _ _ _ _ _ _ _ => t

/-- `Resource.SubList` field: directory childrens list, absent when the
response JSON has no `_embedded` object. -/
def Resource.subList : Resource → Option ResourceList
  | .mk _ _ _ _ _ _ _ s => s

/-- `ResourceList.Items` field. -/
def ResourceList.items : ResourceList → List Resource
  | .mk i _ _ => i

/-- `ResourceList.Limit` field. -/
def ResourceList.limit : ResourceList → Int
  | .mk _ l _ => l

/-- `ResourceList.Offset` field. -/
def ResourceList.offset : ResourceList → Int
  | .mk _ _ o => o

/-- `Error` is a Yandex.Disk server error response object: the HTTP status
code attached by the client plus the three JSON fields. -/
structure Error where
  StatusCode : Nat
  Message : String
  Description : String
  Err : String
deriving DecidableEq, Repr

/-- The three JSON fields `encoding/json` fills when decoding a body into
`Error` (the `StatusCode` field is set by the client before decoding). -/
structure ErrFields where
  message : String
  description : String
  err : String
deriving DecidableEq, Repr

/-- A Go `error` value produced by the client: a decoded API `Error`, an
`encoding/json` decode failure, or an `errors.New`/`fmt.Errorf` message. -/
inductive GoErr where
  | apiError (e : Error)
  | decodeError (msg : String)
  | stringError (msg : String)
deriving DecidableEq, Repr

/-- An HTTP response as the client observes it.  `statusCode` and `body`
are the raw response; the remaining fields are decode oracles: for each
target type the client passes to `json.Unmarshal`, the value the call
leaves in the target together with its optional error (on error Go still
leaves a — possibly zero or partially filled — value behind, which is why
the value is present in both cases). -/
structure Response where
  statusCode : Nat
  body : String
  linkUnmarshal : Link × Option String
  errUnmarshal : ErrFields × Option String
  statusUnmarshal : String × Option String
  resourceUnmarshal : Resource × Option String

/-- Embedding of `readErrBody`: decode the body into `Error` with the HTTP
status code attached; a decode failure is returned instead (the
`ioutil.ReadAll` failure branch is an IO failure outside this model). -/
def readErrBody (r : Response) : GoErr :=
  match r.errUnmarshal.2 with
  | some e => GoErr.decodeError e
  | none =>
    GoErr.apiError
      ⟨r.statusCode, r.errUnmarshal.1.message, r.errUnmarshal.1.description,
        r.errUnmarshal.1.err⟩

/-- Embedding of `readBody`: the body bytes unchanged for a 2xx status,
otherwise the error decoded by `readErrBody`. -/
def readBody (r : Response) : Except GoErr String :=
  if r.statusCode < 200 ∨ 300 ≤ r.statusCode then Except.error (readErrBody r)
  else Except.ok r.body

/-- Embedding of `Client.do`: issue the request and read the body (request
construction and the network call are external; the response is the
oracle). -/
def Client.doReq (r : Response) : Except GoErr String := readBody r

/-- Embedding of `Client.requestLink`.  Go returns a pair `(*Link, error)`:
after a successful `do`, the body is decoded into a fresh `Link`; a
templated link is rejected; otherwise the final `return link, err` returns
the (always non-nil) link pointer together with whatever error
`json.Unmarshal` produced — possibly both non-nil. -/
def Client.requestLink (r : Response) : Option Link × Option GoErr :=
  match Client.doReq r with
  | Except.error e => (none, some e)
  | Except.ok _ =>
    if r.linkUnmarshal.1.Templated then
      (none, some (GoErr.stringError "unsupported templated link"))
    else
      (some r.linkUnmarshal.1, r.linkUnmarshal.2.map GoErr.decodeError)

/-- Embedding of `Client.requestOptionalOp`: `204 No Content` yields no
link and no error; `202 Accepted` decodes the body into a Link (decode
failure and templated links are errors); any other status yields the error
decoded from the body. -/
def Client.requestOptionalOp (r : Response) : Except GoErr (Option Link) :=
  if r.statusCode = 204 then Except.ok none
  else if r.statusCode = 202 then
    match r.linkUnmarshal.2 with
    | some e => Except.error (GoErr.decodeError e)
    | none =>
      if r.linkUnmarshal.1.Templated then
        Except.error (GoErr.stringError "unsupported templated link")
      else Except.ok (some r.linkUnmarshal.1)
  else Except.error (readErrBody r)

/-- Embedding of `Client.Delete`: delegates to `requestOptionalOp` (the
query parameters `path`/`permanently` only shape the outgoing request). -/
def Client.Delete (r : Response) : Except GoErr (Option Link) :=
  Client.requestOptionalOp r

/-- Embedding of `Client.List`: issue the request, decode the body into a
`Resource`, fail when the resource is not a directory, and otherwise
return its (possibly absent) `SubList`. -/
def Client.List (r : Response) : Except GoErr (Option ResourceList) :=
  match Client.doReq r with
  | Except.error e => Except.error e
  | Except.ok _ =>
    match r.resourceUnmarshal.2 with
    | some e => Except.error (GoErr.decodeError e)
    | none =>
      if r.resourceUnmarshal.1.rtype ≠ ResourceTypeDir then
        Except.error (GoErr.stringError "not a directory")
      else Except.ok r.resourceUnmarshal.1.subList

/-- Embedding of `Client.Copy` (also the shape of `Move`, `MkDir`,
`UploadInternet` and `TrashRestore`): call `requestLink` and, when it
reports an error, return nil link with that error; otherwise return the
link with nil error. -/
def Client.Copy (r : Response) : Option Link × Option GoErr :=
  match Client.requestLink r with
  | (_, some e) => (none, some e)
  | (l, none) => (l, none)

/-- Embedding of `Client.Upload`: obtain the upload link via `requestLink`
on `linkResp`, then stream the bytes in a second request whose response is
`upResp`; any status other than `201 Created` is the error
`fmt.Errorf("server responsed %d", ...)`. -/
def Client.Upload (linkResp upResp : Response) : Option GoErr :=
  match Client.requestLink linkResp with
  | (_, some e) => some e
  | (_, none) =>
    if upResp.statusCode ≠ 201 then
      some (GoErr.stringError ("server responsed " ++ toString upResp.statusCode))
    else none

/-- Embedding of `Client.OpStatus`: reject non-operation links, issue the
status request, decode the `status` field and map it onto `Status`; any
other string is `fmt.Errorf("invalid status %s", ...)`. -/
def Client.OpStatus (op : Link) (r : Response) : Except GoErr Status :=
  if ¬ op.IsOperation then Except.error (GoErr.stringError "not operation")
  else
    match readBody r with
    | Except.error e => Except.error e
    | Except.ok _ =>
      match r.statusUnmarshal.2 with
      | some e => Except.error (GoErr.decodeError e)
      | none =>
        if r.statusUnmarshal.1 = "success" then Except.ok Status.StatusSuccess
        else if r.statusUnmarshal.1 = "failure" then Except.ok Status.StatusFailure
        else if r.statusUnmarshal.1 = "in-progress" then Except.ok Status.StatusInProgress
        else Except.error (GoErr.stringError ("invalid status " ++ r.statusUnmarshal.1))

/-- One page of a valid directory as the server slices it: `List(path,
offset, limit)` returns the items `offset ≤ i < offset + limit` of the
directory's full contents, in server order. -/
def pageItems (items : List Resource) (offset : Nat) : List Resource :=
  (items.drop offset).take 100

/-- Embedding of the `ListAll` loop over a valid directory with full
contents `items`: starting from `offset` with accumulator `acc`, fetch the
page, append its items, stop when the page has zero items or fewer than
the requested page size 100, else advance the offset by 100.  The second
component instruments the loop with the number of `List` requests
issued. -/
def listAllLoop (items : List Resource) (offset : Nat) (acc : List Resource) :
    List Resource × Nat :=
  if h : (pageItems items offset).length = 0 ∨ (pageItems items offset).length < 100 then
    (acc ++ pageItems items offset, 1)
  else
    let r := listAllLoop items (offset + 100) (acc ++ pageItems items offset)
    (r.1, r.2 + 1)
termination_by items.length - offset
decreasing_by
  simp only [pageItems, List.length_take, List.length_drop, not_or] at h
  omega

/-- The full contents of a directory, in server order (an alias: inside
the `Client` namespace the bare name `List` resolves to `Client.List`). -/
abbrev DirContents := List Resource

/-- Embedding of `Client.ListAll` over a valid directory with full contents
`items`: run the loop from offset 0 with an empty accumulator, then set
`Limit` to the accumulated item count (`Offset` keeps its zero value from
`&ResourceList{}`). -/
def Client.ListAll (items : DirContents) : ResourceList :=
  ResourceList.mk (listAllLoop items 0 []).1 ((listAllLoop items 0 []).1.length : Int) 0

/-- A sample file resource for concrete evaluations. -/
def fileRes : Resource :=
  Resource.mk ResourceTypeFile "a.txt" "" "" "disk:/a.txt" "d41d8cd9" 4 none

/-- A sample directory resource whose response JSON carried no `_embedded`
child list, so `SubList` is absent. -/
def dirResNoEmbed : Resource :=
  Resource.mk ResourceTypeDir "d" "" "" "disk:/d" "" 0 none

/-- A sample Link whose URL names an asynchronous operation. -/
def opLink : Link :=
  Link.mk "https://cloud-api.yandex.net/v1/disk/operations/123" "GET" false

/-- A sample Link whose URL names a materialized resource. -/
def resrcLink : Link :=
  Link.mk "https://cloud-api.yandex.net/v1/disk/resources/foo" "GET" false

/-- Error fields left untouched when the error decode oracle is unused. -/
def noise : ErrFields := ErrFields.mk "" "" ""

/-- A `200 OK` response. -/
def resp200 : Response :=
  Response.mk 200 "response body" (opLink, none) (noise, none) ("", none) (fileRes, none)

/-- A `201 Created` response, as returned by a successful byte upload. -/
def resp201 : Response :=
  Response.mk 201 "" (opLink, none) (noise, none) ("", none) (fileRes, none)

/-- A `204 No Content` response: synchronous completion. -/
def resp204 : Response :=
  Response.mk 204 "" (opLink, none) (noise, none) ("", none) (fileRes, none)

/-- A `202 Accepted` response whose body decodes to `opLink`. -/
def resp202 : Response :=
  Response.mk 202 "linkbody" (opLink, none) (noise, none) ("", none) (fileRes, none)

/-- A `404 Not Found` response whose body decodes into the `Error` entity. -/
def resp404 : Response :=
  Response.mk 404 "errbody" (opLink, none)
    (ErrFields.mk "resource not found" "not found" "DiskNotFoundError", none)
    ("", none) (fileRes, none)

/-- An operation-status response whose `status` field is `"success"`. -/
def respOpOk : Response :=
  Response.mk 200 "opbody" (opLink, none) (noise, none) ("success", none) (fileRes, none)

/-- An operation-status response whose `status` field is the unknown
string `"done"`. -/
def respOpBad : Response :=
  Response.mk 200 "opbody" (opLink, none) (noise, none) ("done", none) (fileRes, none)

/-- A successful response whose body decodes to a file resource. -/
def respFile : Response :=
  Response.mk 200 "filebody" (opLink, none) (noise, none) ("", none) (fileRes, none)

/-- A successful response whose body decodes to a directory resource with
no embedded child list. -/
def respC9 : Response :=
  Response.mk 200 "dirbody" (opLink, none) (noise, none) ("", none) (dirResNoEmbed, none)

/-- A `200 OK` response whose body is not valid Link JSON: the decode
oracle reports an error while leaving the zero-valued Link in place, as
`json.Unmarshal` does. -/
def respBadLink : Response :=
  Response.mk 200 "not a json body" (Link.mk "" "" false, some "invalid character")
    (noise, none) ("", none) (fileRes, none)

/-- Helper: the `ListAll` loop started at `offset` appends exactly the
remaining items (in order, without duplication or gaps) to the
accumulator, and issues one `List` request per full page plus the final
short one. -/
theorem listAllLoop_spec (items : List Resource) (offset : Nat) (acc : List Resource) :
    (listAllLoop items offset acc).1 = acc ++ items.drop offset ∧
    (listAllLoop items offset acc).2 = (items.length - offset) / 100 + 1 := by
  induction offset, acc using listAllLoop.induct items with
  | case1 offset acc h =>
    have hlen : (pageItems items offset).length = min 100 (items.length - offset) := by
      simp [pageItems]
    have hlt : items.length - offset < 100 := by omega
    have hfull : pageItems items offset = items.drop offset := by
      apply List.take_of_length_le
      simp
      omega
    rw [listAllLoop]
    simp [h, hfull, Nat.div_eq_of_lt hlt, hlt]
  | case2 offset acc h ih =>
    have hlen : (pageItems items offset).length = min 100 (items.length - offset) := by
      simp [pageItems]
    have hge : 100 ≤ items.length - offset := by omega
    rw [listAllLoop]
    simp only [h, dite_false]
    refine ⟨?_, ?_⟩
    · show (listAllLoop items (offset + 100) (acc ++ pageItems items offset)).1 = _
      rw [ih.1, List.append_assoc]
      congr 1
      rw [pageItems]
      have hdd : items.drop (offset + 100) = (items.drop offset).drop 100 := by
        rw [List.drop_drop]
      rw [hdd, List.take_append_drop]
    · show (listAllLoop items (offset + 100) (acc ++ pageItems items offset)).2 + 1 = _
      rw [ih.2]
      have hdiv : (items.length - offset) / 100 = (items.length - (offset + 100)) / 100 + 1 := by
        rw [Nat.div_eq_sub_div (by norm_num) hge, Nat.sub_sub]
      omega

/-- Claim C1: for every valid non-empty directory, `ListAll` returns the
concatenation of the pages obtained by repeatedly calling `List` with page
size 100, in server order with no duplicates and no gaps (its items are
exactly the directory's full contents); the assembled list's `Limit`
equals the total accumulated item count; and the loop issues
`items.length / 100 + 1` requests — it stops exactly at the first page
with zero items or fewer than 100 items, so a directory whose size is an
exact multiple of 100 costs one extra request. -/
theorem C1_ListAll_all_pages (items : DirContents) (hne : items ≠ []) :
    (Client.ListAll items).items = items ∧
    (Client.ListAll items).limit = (items.length : Int) ∧
    (listAllLoop items 0 []).2 = items.length / 100 + 1 := by
  have h := listAllLoop_spec items 0 []
  refine ⟨?_, ?_, ?_⟩
  · simp [Client.ListAll, ResourceList.items, h.1]
  · simp [Client.ListAll, ResourceList.limit, h.1]
  · simpa using h.2

/-- Witness for C1 at the one-element directory `[fileRes]`. -/
theorem C1_ListAll_all_pages_witness :
    (Client.ListAll [fileRes]).items = [fileRes] ∧
    (Client.ListAll [fileRes]).limit = (([fileRes] : DirContents).length : Int) ∧
    (listAllLoop [fileRes] 0 []).2 = ([fileRes] : DirContents).length / 100 + 1 :=
  C1_ListAll_all_pages [fileRes] (by simp)

/-- Claim C2: a `Delete` receiving `204 No Content` returns no link and no
error; one receiving `202 Accepted` whose body decodes to a non-templated
Link returns that populated Link and no error; any other status returns
the error decoded from the response body with the status code attached. -/
theorem C2_Delete_status_cases (r : Response) :
    (r.statusCode = 204 → Client.Delete r = Except.ok none) ∧
    (r.statusCode = 202 → r.linkUnmarshal.2 = none →
      r.linkUnmarshal.1.Templated = false →
      Client.Delete r = Except.ok (some r.linkUnmarshal.1)) ∧
    (r.statusCode ≠ 204 → r.statusCode ≠ 202 → r.errUnmarshal.2 = none →
      Client.Delete r = Except.error (GoErr.apiError
        ⟨r.statusCode, r.errUnmarshal.1.message, r.errUnmarshal.1.description,
          r.errUnmarshal.1.err⟩)) := by
  refine ⟨?_, ?_, ?_⟩
  · intro h
    simp [Client.Delete, Client.requestOptionalOp, h]
  · intro h hd ht
    simp [Client.Delete, Client.requestOptionalOp, h, hd, ht]
  · intro h1 h2 he
    simp [Client.Delete, Client.requestOptionalOp, readErrBody, h1, h2, he]

/-- Witness for C2 at concrete 204, 202 and 404 responses. -/
theorem C2_Delete_status_cases_witness :
    Client.Delete resp204 = Except.ok none ∧
    Client.Delete resp202 = Except.ok (some resp202.linkUnmarshal.1) ∧
    Client.Delete resp404 = Except.error (GoErr.apiError
      ⟨resp404.statusCode, resp404.errUnmarshal.1.message,
        resp404.errUnmarshal.1.description, resp404.errUnmarshal.1.err⟩) :=
  ⟨(C2_Delete_status_cases resp204).1 rfl,
   (C2_Delete_status_cases resp202).2.1 rfl rfl rfl,
   (C2_Delete_status_cases resp404).2.2 (by decide) (by decide) rfl⟩

/-- Claim C3: the Link to `.../disk/operations/123` reports
`IsOperation() == true` and `Operation() == "123"` (the last path
segment), while the Link to `.../disk/resources/foo` reports
`IsOperation() == false` and `Operation() == ""`. -/
theorem C3_Link_operation_url :
    opLink.IsOperation = true ∧ opLink.Operation = "123" ∧
    resrcLink.IsOperation = false ∧ resrcLink.Operation = "" := by
  refine ⟨by decide, by decide, by decide, by decide⟩

/-- Claim C4: on a successfully read operation-status response, `OpStatus`
maps the server's status string `"success"` to `StatusSuccess`,
`"failure"` to `StatusFailure` and `"in-progress"` to `StatusInProgress`,
and for any other status string it returns an error rather than silently
defaulting to some `Status` value. -/
theorem C4_OpStatus_status_mapping (op : Link) (r : Response)
    (hop : op.IsOperation = true)
    (hcode : 200 ≤ r.statusCode ∧ r.statusCode < 300)
    (hdec : r.statusUnmarshal.2 = none) :
    (r.statusUnmarshal.1 = "success" →
      Client.OpStatus op r = Except.ok Status.StatusSuccess) ∧
    (r.statusUnmarshal.1 = "failure" →
      Client.OpStatus op r = Except.ok Status.StatusFailure) ∧
    (r.statusUnmarshal.1 = "in-progress" →
      Client.OpStatus op r = Except.ok Status.StatusInProgress) ∧
    (r.statusUnmarshal.1 ≠ "success" → r.statusUnmarshal.1 ≠ "failure" →
      r.statusUnmarshal.1 ≠ "in-progress" →
      Client.OpStatus op r =
        Except.error (GoErr.stringError ("invalid status " ++ r.statusUnmarshal.1))) := by
  have hbody : readBody r = Except.ok r.body := by
    rw [readBody, if_neg (by omega)]
  refine ⟨?_, ?_, ?_, ?_⟩
  · intro h
    simp [Client.OpStatus, hop, hbody, hdec, h]
  · intro h
    simp [Client.OpStatus, hop, hbody, hdec, h]
  · intro h
    simp [Client.OpStatus, hop, hbody, hdec, h]
  · intro h1 h2 h3
    simp [Client.OpStatus, hop, hbody, hdec, h1, h2, h3]

/-- Witness for C4 at a `"success"` response and at the unknown status
string `"done"`. -/
theorem C4_OpStatus_status_mapping_witness :
    Client.OpStatus opLink respOpOk = Except.ok Status.StatusSuccess ∧
    Client.OpStatus opLink respOpBad =
      Except.error (GoErr.stringError ("invalid status " ++ respOpBad.statusUnmarshal.1)) :=
  ⟨(C4_OpStatus_status_mapping opLink respOpOk (by decide) (by decide) rfl).1 rfl,
   (C4_OpStatus_status_mapping opLink respOpBad (by decide) (by decide) rfl).2.2.2
     (by decide) (by decide) (by decide)⟩

/-- Claim C5: the request-issuing primitive returns the body bytes
unchanged when the HTTP status is in 200–299, and otherwise decodes the
body into the `Error` entity with the status code attached and fails with
that Error value. -/
theorem C5_readBody_contract (r : Response) :
    (200 ≤ r.statusCode → r.statusCode < 300 → readBody r = Except.ok r.body) ∧
    ((r.statusCode < 200 ∨ 300 ≤ r.statusCode) → r.errUnmarshal.2 = none →
      readBody r = Except.error (GoErr.apiError
        ⟨r.statusCode, r.errUnmarshal.1.message, r.errUnmarshal.1.description,
          r.errUnmarshal.1.err⟩)) := by
  constructor
  · intro h1 h2
    rw [readBody, if_neg (by omega)]
  · intro h he
    rw [readBody, if_pos h]
    simp [readErrBody, he]

/-- Witness for C5 at a `200 OK` and a `404 Not Found` response. -/
theorem C5_readBody_contract_witness :
    readBody resp200 = Except.ok resp200.body ∧
    readBody resp404 = Except.error (GoErr.apiError
      ⟨resp404.statusCode, resp404.errUnmarshal.1.message,
        resp404.errUnmarshal.1.description, resp404.errUnmarshal.1.err⟩) :=
  ⟨(C5_readBody_contract resp200).1 (by decide) (by decide),
   (C5_readBody_contract resp404).2 (Or.inr (by decide)) rfl⟩

/-- Claim C6: when the link-obtaining step of `Upload` succeeds, `Upload`
returns success (no error) exactly when the second, byte-streaming request
completes with HTTP status `201 Created`; any other status yields an
error. -/
theorem C6_Upload_created_iff (lr ur : Response)
    (hlink : (Client.requestLink lr).2 = none) :
    (Client.Upload lr ur = none ↔ ur.statusCode = 201) := by
  rcases hq : Client.requestLink lr with ⟨l, e⟩
  rw [hq] at hlink
  simp only at hlink
  subst hlink
  by_cases h : ur.statusCode = 201 <;> simp [Client.Upload, hq, h]

/-- Witness for C6 at a good link response and a `201 Created` upload
response. -/
theorem C6_Upload_created_iff_witness :
    Client.Upload resp200 resp201 = none ↔ resp201.statusCode = 201 :=
  C6_Upload_created_iff resp200 resp201 rfl

/-- Claim C7: a `List` whose resource response decodes to a kind other
than directory returns the error value "not a directory" (a total
function: no panic is modelled or possible). -/
theorem C7_List_not_directory (r : Response)
    (hcode : 200 ≤ r.statusCode ∧ r.statusCode < 300)
    (hdec : r.resourceUnmarshal.2 = none)
    (hkind : r.resourceUnmarshal.1.rtype ≠ ResourceTypeDir) :
    Client.List r = Except.error (GoErr.stringError "not a directory") := by
  have hbody : Client.doReq r = Except.ok r.body := by
    rw [Client.doReq, readBody, if_neg (by omega)]
  simp [Client.List, hbody, hdec, hkind]

/-- Witness for C7 at a response resolving to a file resource. -/
theorem C7_List_not_directory_witness :
    Client.List respFile = Except.error (GoErr.stringError "not a directory") :=
  C7_List_not_directory respFile (by decide) rfl (by decide)

/-- Claim C8: `ResourceType` JSON decoding maps the quoted string
`"dir"` to the directory kind and `"file"` to the file kind; any other
quoted string decodes to the unknown kind without an error; a malformed
value — missing surrounding quotes or shorter than two characters — fails
with an error. -/
theorem C8_ResourceType_decoding (inner : List Char)
    (h1 : inner ≠ "dir".data) (h2 : inner ≠ "file".data) :
    ResourceType.unmarshalJSON ('"' :: inner ++ ['"']) = Except.ok ResourceTypeUnknown ∧
    ResourceType.unmarshalJSON "\"dir\"".data = Except.ok ResourceTypeDir ∧
    ResourceType.unmarshalJSON "\"file\"".data = Except.ok ResourceTypeFile ∧
    ResourceType.unmarshalJSON "dir".data =
      Except.error ("invalid type JSON value dir") ∧
    ResourceType.unmarshalJSON "\"".data =
      Except.error ("invalid type JSON value \"") := by
  refine ⟨?_, rfl, rfl, rfl, rfl⟩
  have hlen : ('"' :: inner ++ ['"']).length = inner.length + 2 := by simp
  have hhead : ('"' :: inner ++ ['"']).head? = some '"' := rfl
  have hlast : ('"' :: inner ++ ['"']).getLast? = some '"' := by
    show (('"' :: inner) ++ ['"']).getLast? = some '"'
    exact List.getLast?_concat _
  have hcond : ¬(('"' :: inner ++ ['"']).length < 2 ∨
      ('"' :: inner ++ ['"']).head? ≠ some '"' ∨
      ('"' :: inner ++ ['"']).getLast? ≠ some '"') := by
    push_neg
    exact ⟨by omega, hhead, hlast⟩
  rw [ResourceType.unmarshalJSON, if_neg hcond]
  simp [h1, h2]

/-- Witness for C8 at the inner string `"other"`. -/
theorem C8_ResourceType_decoding_witness :
    ResourceType.unmarshalJSON ('"' :: "other".data ++ ['"']) = Except.ok ResourceTypeUnknown ∧
    ResourceType.unmarshalJSON "\"dir\"".data = Except.ok ResourceTypeDir ∧
    ResourceType.unmarshalJSON "\"file\"".data = Except.ok ResourceTypeFile ∧
    ResourceType.unmarshalJSON "dir".data =
      Except.error ("invalid type JSON value dir") ∧
    ResourceType.unmarshalJSON "\"".data =
      Except.error ("invalid type JSON value \"") :=
  C8_ResourceType_decoding "other".data (by decide) (by decide)

/-- Claim C9: a successful response decoding to a valid directory resource
whose JSON carries no embedded child list makes `List` return no list and
no error — the caller receives neither a `ResourceList` nor an error. -/
theorem C9_List_ok_none : Client.List respC9 = Except.ok none := rfl

/-- Claim C10 as stated is false: `Copy` (like `Move`, `MkDir`,
`UploadInternet` and `TrashRestore`) checks the error returned by
`requestLink` and returns a nil link together with that error, so no
response can make `Copy` return both a non-nil Link and a non-nil
error. -/
theorem C10_Copy_never_both :
    ¬ ∃ r : Response, (Client.Copy r).1.isSome = true ∧ (Client.Copy r).2.isSome = true := by
  rintro ⟨r, h1, h2⟩
  rcases hq : Client.requestLink r with ⟨l, e⟩
  cases e with
  | none =>
    simp [Client.Copy, hq] at h2
  | some e0 =>
    simp [Client.Copy, hq] at h1

/-- Claim C10 amended: on a 2xx response whose body is not valid Link
JSON, the link-obtaining helper `requestLink` itself returns a non-nil
(zero-valued) Link together with a non-nil decode error; the link-returning
operations such as `Copy`, however, check that error and return a nil Link
with the error, never both non-nil. -/
theorem C10_requestLink_both :
    Client.requestLink respBadLink =
      (some (Link.mk "" "" false), some (GoErr.decodeError "invalid character")) ∧
    Client.Copy respBadLink = (none, some (GoErr.decodeError "invalid character")) :=
  ⟨rfl, rfl⟩
